import Mathlib

/-!
A shallow embedding of the gorc2 Orchestrate client library (the core of
the UK-Chargepoints repository) and proofs about its specification claims.

Modelling conventions:
* Go machine integers (`int`, `int64`) are modelled as `Int`; Go's `/` and `%`
  on integers truncate toward zero, which is `Int.tdiv` / `Int.tmod`.
* Go `time.Time` is modelled as the number of nanoseconds since the epoch
  (an `Int`); `t.UnixNano()` is the identity and `time.Unix secs nsecs` is
  `secs * 1000000000 + nsecs`.
* The HTTP transport (`Client.doRequest` and the underlying
  `http.RoundTripper`) is external to the library; it is modelled as a
  function `Transport` from the request the library builds (method, path,
  caller-supplied headers, body) to either a network error or an
  `HttpResponse`.  The auth / user-agent / content-type headers added
  inside `doRequest` are part of the external transport boundary and are
  not tracked.
* JSON encoding/decoding is performed by the external `encoding/json`
  package.  An `HttpResponse` therefore carries, as abstract attributes,
  the outcome of decoding its body into each Go target type the library
  uses (`jsonList`, `jsonEvent`, `json.RawMessage`, `UnknownError`), and
  the number of body bytes such a decode consumes.
* Go errors are interface values distinguished by dynamic type; the
  inductive `GoErr` has one constructor per error type the library can
  produce (`errorString` covers `errors.New` / `fmt.Errorf`).
* A Go function returning `(*T, error)` is modelled as returning
  `Option T × Option GoErr`, one component per Go return value, so that
  "nil pointer with non-nil error" is faithfully representable.
-/

/-- Go error values produced by the library, one constructor per dynamic
error type (`errors.go` plus `errors.New`/`fmt.Errorf` and JSON failures). -/
inductive GoErr where
  | notFound (s : String)
  | preconditionFailed (s : String)
  | rateLimited (s : String)
  | alreadyExists (key : String)
  | notMostRecent (s : String)
  | unknown (status : String) (statusCode : Int) (message : String)
  | errorString (s : String)
  | jsonError (s : String)
  deriving DecidableEq, Repr

/-- Stand-in for Go `float32` (`Distance` / `Score` fields); no claim reasons
about these values. -/
def Float32 := Float

instance : Inhabited Float32 := ⟨(0 : Float)⟩

/-- Go `time.Time`, as nanoseconds since the Unix epoch. -/
abbrev Time := Int

/-- Go `t.UnixNano()`. -/
def unixNano (t : Time) : Int := t

/-- Go `time.Unix secs nsecs`. -/
def timeUnix (secs nsecs : Int) : Time := secs * 1000000000 + nsecs

/-- Model of `ts.UnixNano()/1000000`: the millisecond timestamp the library puts on
the wire for events (`innerAddEvent`, `GetEvent`, `DeleteEvent`,
`ListEvents`).  Go division truncates toward zero. -/
def eventPathMs (t : Time) : Int := Int.tdiv (unixNano t) 1000000

/-- Model of `time.Unix(ms/1000, (ms%1000)*1000000)`: how the library reconstructs a
`time.Time` from a milliseconds-since-epoch wire value (`innerAddEvent`,
`innerUpdateEvent`, `GetEvent`, `Iterator.Get`, `Iterator.GetEvent`). -/
def timeFromMs (ms : Int) : Time :=
  timeUnix (Int.tdiv ms 1000) (Int.tmod ms 1000 * 1000000)

/-- The `jsonPath` structure from `list.go` (field `Type` is renamed `Typ`
because `Type` is a Lean keyword). -/
structure JsonPath where
  Collection : String := ""
  Key : String := ""
  Ordinal : Int := 0
  Ref : String := ""
  Timestamp : Int := 0
  Tombstone : Bool := false
  Typ : String := ""

/-- The `jsonListItem` structure from `list.go`; `Value` holds the raw JSON
bytes (`json.RawMessage`). -/
structure JsonListItem where
  Distance : Float32 := (0 : Float)
  Ordinal : Int := 0
  Path : JsonPath := {}
  RefTime : Int := 0
  Score : Float32 := (0 : Float)
  Timestamp : Int := 0
  Value : String := ""

/-- The `jsonList` structure from `list.go`. -/
structure JsonList where
  Count : Int := 0
  TotalCount : Int := 0
  Next : String := ""
  Prev : String := ""
  Results : List JsonListItem := []

/-- The `jsonEvent` structure from the events file. -/
structure JsonEvent where
  Ordinal : Int := 0
  Path : JsonPath := {}
  Timestamp : Int := 0
  Value : String := ""

/-- An `http.Response` as the library observes it.  `Header` is
`resp.Header.Get`.  The `Decode*` fields are the abstract outcomes of
JSON-decoding the response body into each target type the library uses
(performed by the external `encoding/json` package, possibly through the
gzip/deflate readers chosen by `jsonReply`); `DecodeErrConsumed` is the
number of body bytes the `UnknownError` decode inside `newError` consumes. -/
structure HttpResponse where
  Status : String := ""
  StatusCode : Nat := 200
  Header : String → String := fun _ => ""
  BodyLen : Nat := 0
  DecodeErrMessage : Except String String := .ok ""
  DecodeErrConsumed : Nat := 0
  DecodeRaw : Except String String := .ok ""
  DecodeList : Except String JsonList := .error "not json"
  DecodeEvent : Except String JsonEvent := .error "not json"

/-- The request `Client.doRequest` builds and hands to the HTTP layer:
method, URL suffix (after the fixed `/v0/` base), the caller-supplied
headers, and the optional body bytes. -/
structure Request where
  method : String
  path : String
  headers : List (String × String)
  body : Option String
  deriving Repr

/-- The external HTTP layer: executes a request, returning a network error
or a response. -/
def Transport := Request → Except GoErr HttpResponse

/-- A `Collection` handle (`item.go`); the back-pointer to the `Client` is
replaced by passing a `Transport` to each operation. -/
structure Collection where
  Name : String := ""

/-- An `Item` (`item.go`); `Updated` is a `Time`, `Value` the raw JSON. -/
structure Item where
  Collection : Collection := {}
  Distance : Float32 := (0 : Float)
  Key : String := ""
  Ref : String := ""
  Score : Float32 := (0 : Float)
  Tombstone : Bool := false
  Updated : Time := 0
  Value : String := ""

/-- An `Event` (`item.go`; field `Type` renamed `Typ`). -/
structure Event where
  Collection : Collection := {}
  Key : String := ""
  Ordinal : Int := 0
  Ref : String := ""
  Timestamp : Time := 0
  Typ : String := ""
  Value : String := ""

/-- The pagination `Iterator` from `list.go`; the `client` field is replaced
by the `Transport` argument of `Iterator.nextStep`. -/
structure Iterator where
  Error : Option GoErr := none
  done : Bool := false
  index : Nat := 0
  iteratingEvents : Bool := false
  iteratingItems : Bool := false
  next : String := ""
  results : List JsonListItem := []

/-! ### String helpers (models of the Go standard-library calls used) -/

/-- The suffix of `s` after the last occurrence of `c`, or `none` if `c`
does not occur: models the `strings.LastIndex(loc, "/")` /
`loc[i+1:len(loc)]` idiom of `innerPut` and `GetRef`. -/
def afterLast (c : Char) : List Char → Option (List Char)
  | [] => none
  | x :: xs =>
    match afterLast c xs with
    | some r => some r
    | none => if x = c then some xs else none

/-- Go `strings.Split(s, sep)` for a single-character separator, over the
character list of `s`. -/
def splitChar (sep : Char) : List Char → List (List Char)
  | [] => [[]]
  | c :: cs =>
    let r := splitChar sep cs
    if c = sep then [] :: r
    else
      match r with
      | x :: xs => (c :: x) :: xs
      | [] => [[c]]

/-- Go `strings.TrimPrefix(s, pre)`. -/
def trimPre (s pre : String) : String :=
  if s.data.take pre.data.length = pre.data then String.mk (s.data.drop pre.data.length) else s

/-- Go `strconv.ParseInt(s, 10, 64)`: `none` models a returned error
(syntax or 64-bit range overflow). -/
def goParseInt64 (s : String) : Option Int :=
  let parseDigits : List Char → Option Nat := fun ds =>
    ds.foldl (fun acc c =>
      match acc with
      | none => none
      | some n => if '0' ≤ c ∧ c ≤ '9' then some (n * 10 + (c.toNat - '0'.toNat)) else none)
      (some 0)
  match s.data with
  | [] => none
  | c :: cs =>
    let signed : Bool × List Char :=
      if c = '-' then (true, cs) else if c = '+' then (false, cs) else (false, c :: cs)
    match signed.2 with
    | [] => none
    | ds =>
      match parseDigits ds with
      | none => none
      | some n =>
        if signed.1 then (if n ≤ 2 ^ 63 then some (-(n : Int)) else none)
        else (if n ≤ 2 ^ 63 - 1 then some (n : Int) else none)

/-! ### Error classifier and reply handling (`errors.go`, client file) -/

/-- The `message` the `UnknownError` branch of `newError` ends up with: the
decoded JSON `message` field on success, or the decode error's text
(`oe.Message = err.Error()`). -/
def errMessage (resp : HttpResponse) : String :=
  match resp.DecodeErrMessage with
  | .ok m => m
  | .error e => e

/-- Model of `newError` from `errors.go`: classifies an unexpected HTTP response. -/
def newError (resp : HttpResponse) : GoErr :=
  if resp.StatusCode = 404 then .notFound "404: Not found."
  else if resp.StatusCode = 412 then .preconditionFailed "412: Precondition failed."
  else if resp.StatusCode = 419 then .rateLimited "Request rate limited."
  else .unknown resp.Status (resp.StatusCode : Int) (errMessage resp)

/-- Body bytes read by `newError`: the 404/412/419 branches return before
touching the body; the `UnknownError` branch runs one JSON decode on it. -/
def newErrorConsumed (resp : HttpResponse) : Nat :=
  if resp.StatusCode = 404 then 0
  else if resp.StatusCode = 412 then 0
  else if resp.StatusCode = 419 then 0
  else resp.DecodeErrConsumed

/-- Model of `Client.emptyReply`: returns the classified result together with the
number of body bytes read before returning (`io.Copy(ioutil.Discard, _)`
drains the whole body on the success path only). -/
def emptyReply (tr : Transport) (method path : String) (headers : List (String × String))
    (body : Option String) (status : Nat) : Except GoErr HttpResponse × Nat :=
  match tr { method := method, path := path, headers := headers, body := body } with
  | .error e => (.error e, 0)
  | .ok resp =>
    if resp.StatusCode ≠ status then (.error (newError resp), newErrorConsumed resp)
    else (.ok resp, resp.BodyLen)

/-- Model of `Client.jsonReply` at target type `jsonList` (used by `Iterator.Next`).
The gzip/deflate/plain reader choice and the JSON decode are folded into
the abstract `DecodeList` attribute of the response. -/
def jsonReplyList (tr : Transport) (method path : String) (body : Option String)
    (status : Nat) : Except GoErr (HttpResponse × JsonList) :=
  match tr { method := method, path := path,
             headers := [("Accept-Encoding", "gzip; deflate")], body := body } with
  | .error e => .error e
  | .ok resp =>
    if resp.StatusCode ≠ status then .error (newError resp)
    else
      match resp.DecodeList with
      | .error e => .error (.jsonError e)
      | .ok jl => .ok (resp, jl)

/-- Model of `Client.jsonReply` at target type `json.RawMessage` (used by `GetRef`,
which decodes the body into `item.Value`). -/
def jsonReplyRaw (tr : Transport) (method path : String) (body : Option String)
    (status : Nat) : Except GoErr (HttpResponse × String) :=
  match tr { method := method, path := path,
             headers := [("Accept-Encoding", "gzip; deflate")], body := body } with
  | .error e => .error e
  | .ok resp =>
    if resp.StatusCode ≠ status then .error (newError resp)
    else
      match resp.DecodeRaw with
      | .error e => .error (.jsonError e)
      | .ok v => .ok (resp, v)

/-- Model of `Client.jsonReply` at target type `jsonEvent` (used by `GetEvent`). -/
def jsonReplyEvent (tr : Transport) (method path : String) (body : Option String)
    (status : Nat) : Except GoErr (HttpResponse × JsonEvent) :=
  match tr { method := method, path := path,
             headers := [("Accept-Encoding", "gzip; deflate")], body := body } with
  | .error e => .error e
  | .ok resp =>
    if resp.StatusCode ≠ status then .error (newError resp)
    else
      match resp.DecodeEvent with
      | .error e => .error (.jsonError e)
      | .ok v => .ok (resp, v)

/-! ### Key-value operations (`list.go` middle section, `item.go`) -/

/-- Model of `Collection.innerPut`: the shared PUT for `Create`, `Update` and
`Item.Update`.  `mval` is the outcome of `json.Marshal(value)` (external).
Returns the Go pair `(*Item, error)`. -/
def Collection.innerPut (c : Collection) (tr : Transport) (key : String)
    (headers : List (String × String)) (mval : Except GoErr String) :
    Option Item × Option GoErr :=
  match mval with
  | .error e => (none, some e)
  | .ok raw =>
    match (emptyReply tr "PUT" (c.Name ++ "/" ++ key) headers (some raw) 201).1 with
    | .error e => (none, some e)
    | .ok resp =>
      match afterLast '/' (resp.Header "Location").data with
      | none => (none, some (.errorString "Missing Location header."))
      | some suf =>
        (some { Collection := c, Key := key, Ref := String.mk suf, Value := raw }, none)

/-- Model of `Collection.Create`: PUT with `If-None-Match: "*"`, reclassifying a 412
into `AlreadyExistsError(key)`. -/
def Collection.create (c : Collection) (tr : Transport) (key : String)
    (mval : Except GoErr String) : Option Item × Option GoErr :=
  let r := c.innerPut tr key [("If-None-Match", "\"*\"")] mval
  match r.2 with
  | some (.preconditionFailed _) => (r.1, some (.alreadyExists key))
  | _ => r

/-- Model of `Collection.Update`: unconditional PUT. -/
def Collection.update (c : Collection) (tr : Transport) (key : String)
    (mval : Except GoErr String) : Option Item × Option GoErr :=
  c.innerPut tr key [] mval

/-- Model of `Item.Update` (`item.go`): conditional PUT with `If-Match: "<ref>"`,
reclassifying a 412 into `NotMostRecentError(i.Key)`. -/
def Item.update (i : Item) (tr : Transport) (mval : Except GoErr String) :
    Option Item × Option GoErr :=
  let r := i.Collection.innerPut tr i.Key [("If-Match", "\"" ++ i.Ref ++ "\"")] mval
  match r.2 with
  | some (.preconditionFailed _) => (r.1, some (.notMostRecent i.Key))
  | _ => r

/-- Model of `Item.Delete` (`item.go`): conditional DELETE with `If-Match: "<ref>"`,
reclassifying a 412 into `NotMostRecentError(i.Ref)`. -/
def Item.delete (i : Item) (tr : Transport) : Option GoErr :=
  let r := (emptyReply tr "DELETE" (i.Collection.Name ++ "/" ++ i.Key)
      [("If-Match", "\"" ++ i.Ref ++ "\"")] none 204).1
  match r with
  | .error (.preconditionFailed _) => some (.notMostRecent i.Ref)
  | .error e => some e
  | .ok _ => none

/-- Model of `Collection.GetRef`: GET of `key` (ref = "") or `key/refs/ref`.
`wantValue` is whether the caller passed a non-nil decode destination, and
`unmarshal` is the external `json.Unmarshal` outcome on the raw value. -/
def Collection.getRef (c : Collection) (tr : Transport) (key ref : String)
    (wantValue : Bool) (unmarshal : String → Option GoErr) :
    Option Item × Option GoErr :=
  let path :=
    if ref = "" then c.Name ++ "/" ++ key
    else c.Name ++ "/" ++ key ++ "/refs/" ++ ref
  match jsonReplyRaw tr "GET" path none 200 with
  | .error e => (none, some e)
  | .ok (resp, raw) =>
    let base : Item := { Collection := c, Key := key, Value := raw }
    if ref = "" then
      match afterLast '/' (resp.Header "Content-Location").data with
      | none => (none, some (.errorString "Missing Content-Location header."))
      | some suf =>
        let item := { base with Ref := String.mk suf }
        if wantValue then (some item, unmarshal raw) else (some item, none)
    else
      let item := { base with Ref := ref }
      if wantValue then (some item, unmarshal raw) else (some item, none)

/-- Model of `Collection.Get`: `GetRef` with an empty ref. -/
def Collection.get (c : Collection) (tr : Transport) (key : String)
    (wantValue : Bool) (unmarshal : String → Option GoErr) :
    Option Item × Option GoErr :=
  c.getRef tr key "" wantValue unmarshal

/-! ### Event operations (events file) -/

/-- Model of `Collection.innerAddEvent`: POST of an event, then parse of the
`Location` (8 slash-separated parts whose last two are the millisecond
timestamp and the ordinal) and `Etag` (quoted ref) response headers. -/
def Collection.innerAddEvent (c : Collection) (tr : Transport) (key typ : String)
    (ts : Option Time) (mval : Except GoErr String) : Option Event × Option GoErr :=
  match mval with
  | .error e => (none, some e)
  | .ok raw =>
    let path :=
      match ts with
      | some t => c.Name ++ "/" ++ key ++ "/events/" ++ typ ++ "/" ++ toString (eventPathMs t)
      | none => c.Name ++ "/" ++ key ++ "/events/" ++ typ
    match (emptyReply tr "POST" path [("Content-Type", "application/json")] (some raw) 201).1 with
    | .error e => (none, some e)
    | .ok resp =>
      let location := resp.Header "Location"
      if location = "" then (none, some (.errorString "Missing Location header."))
      else
        let parts := splitChar '/' location.data
        if parts.length ≠ 8 then (none, some (.errorString "Malformed Location header."))
        else
          match goParseInt64 (String.mk (parts.getD 6 [])) with
          | none => (none, some (.errorString "Malformed Timestamp in the Location header."))
          | some tsMs =>
            match goParseInt64 (String.mk (parts.getD 7 [])) with
            | none => (none, some (.errorString "Malformed Ordinal in the Location header."))
            | some ord =>
              let etag := resp.Header "Etag"
              if etag = "" then (none, some (.errorString "Missing ETag header."))
              else if (splitChar '\x22' etag.data).length ≠ 3 then
                (none, some (.errorString "Malformed ETag header."))
              else
                (some { Collection := c, Key := key, Typ := typ,
                        Timestamp := timeFromMs tsMs, Ordinal := ord,
                        Ref := String.mk ((splitChar '\x22' etag.data).getD 1 []),
                        Value := raw }, none)

/-- Model of `Collection.AddEvent`: server-assigned timestamp. -/
def Collection.addEvent (c : Collection) (tr : Transport) (key typ : String)
    (mval : Except GoErr String) : Option Event × Option GoErr :=
  c.innerAddEvent tr key typ none mval

/-- Model of `Collection.AddEventWithTimestamp`. -/
def Collection.addEventWithTimestamp (c : Collection) (tr : Transport) (key typ : String)
    (ts : Time) (mval : Except GoErr String) : Option Event × Option GoErr :=
  c.innerAddEvent tr key typ (some ts) mval

/-- Model of `Collection.innerUpdateEvent`: PUT of an event at
`<key>/events/<typ>/<ms>/<ordinal>` expecting 204, then the same
`Location`/`Etag` parsing as `innerAddEvent`. -/
def Collection.innerUpdateEvent (c : Collection) (tr : Transport) (key typ : String)
    (ts : Time) (ordinal : Int) (mval : Except GoErr String)
    (headers : List (String × String)) : Option Event × Option GoErr :=
  match mval with
  | .error e => (none, some e)
  | .ok raw =>
    let path := c.Name ++ "/" ++ key ++ "/events/" ++ typ ++ "/" ++
      toString (eventPathMs ts) ++ "/" ++ toString ordinal
    match (emptyReply tr "PUT" path headers (some raw) 204).1 with
    | .error e => (none, some e)
    | .ok resp =>
      let location := resp.Header "Location"
      if location = "" then (none, some (.errorString "Missing Location header."))
      else
        let parts := splitChar '/' location.data
        if parts.length ≠ 8 then (none, some (.errorString "Malformed Location header."))
        else
          match goParseInt64 (String.mk (parts.getD 6 [])) with
          | none => (none, some (.errorString "Malformed Timestamp in the Location header."))
          | some tsMs =>
            match goParseInt64 (String.mk (parts.getD 7 [])) with
            | none => (none, some (.errorString "Malformed Ordinal in the Location header."))
            | some ord =>
              let etag := resp.Header "Etag"
              if etag = "" then (none, some (.errorString "Missing ETag header."))
              else if (splitChar '\x22' etag.data).length ≠ 3 then
                (none, some (.errorString "Malformed ETag header."))
              else
                (some { Collection := c, Key := key, Typ := typ,
                        Timestamp := timeFromMs tsMs, Ordinal := ord,
                        Ref := String.mk ((splitChar '\x22' etag.data).getD 1 []),
                        Value := raw }, none)

/-- Model of `Collection.UpdateEvent`. -/
def Collection.updateEvent (c : Collection) (tr : Transport) (key typ : String)
    (ts : Time) (ordinal : Int) (mval : Except GoErr String) :
    Option Event × Option GoErr :=
  c.innerUpdateEvent tr key typ ts ordinal mval [("Content-Type", "application/json")]

/-- Model of `Collection.GetEvent`: GET of one event; the reply body is decoded into
a `jsonEvent` and its millisecond `Timestamp` reconstructed. -/
def Collection.getEvent (c : Collection) (tr : Transport) (key typ : String)
    (ts : Time) (ordinal : Int) (wantValue : Bool)
    (unmarshal : String → Option GoErr) : Option Event × Option GoErr :=
  let path := c.Name ++ "/" ++ key ++ "/events/" ++ typ ++ "/" ++
    toString (eventPathMs ts) ++ "/" ++ toString ordinal
  match jsonReplyEvent tr "GET" path none 200 with
  | .error e => (none, some e)
  | .ok (_, rd) =>
    let event : Event := { Collection := c, Key := key, Typ := typ,
                           Value := rd.Value, Ref := rd.Path.Ref,
                           Timestamp := timeFromMs rd.Timestamp, Ordinal := rd.Ordinal }
    if wantValue then (some event, unmarshal rd.Value) else (some event, none)

/-! ### The pagination iterator (`list.go` top section) -/

/-- Model of `Iterator.Next`: one advance of the cursor.  Returns the `bool` Go
returns, the mutated iterator, and the number of network fetches performed
by this call (0 or 1). -/
def Iterator.nextStep (tr : Transport) (i : Iterator) : Bool × Iterator × Nat :=
  if i.done then (false, i, 0)
  else if i.Error.isSome then (false, i, 0)
  else if i.index < i.results.length - 1 then (true, { i with index := i.index + 1 }, 0)
  else if i.next = "" then (false, { i with done := true }, 0)
  else
    match jsonReplyList tr "GET" i.next none 200 with
    | .error e => (false, { i with Error := some e }, 1)
    | .ok (_, jl) =>
      let i2 := { i with next := trimPre jl.Next "/v0/", results := jl.Results }
      if jl.Results.length = 0 then (false, { i2 with done := true }, 1)
      else (true, { i2 with index := 0 }, 1)

/-- Model of `Iterator.NextWithError`. -/
def Iterator.nextWithError (tr : Transport) (i : Iterator) :
    (Bool × Option GoErr) × Iterator × Nat :=
  let s := i.nextStep tr
  ((s.1, s.2.1.Error), s.2.1, s.2.2)

/-- The aggregate outcome of a sequence of `Next` calls: how many returned
`true`, how many network fetches they performed, and the final iterator. -/
structure RunOut where
  trues : Nat
  fetches : Nat
  iter : Iterator

/-- Runs `n` successive calls to `Iterator.Next`. -/
def Iterator.run (tr : Transport) (i : Iterator) : Nat → RunOut
  | 0 => ⟨0, 0, i⟩
  | n + 1 =>
    let s := i.nextStep tr
    let r := s.2.1.run tr n
    ⟨(if s.1 then 1 else 0) + r.trues, s.2.2 + r.fetches, r.iter⟩

/-- Model of `Iterator.Get`: the raw `i.results[i.index]` access is unchecked in Go;
an out-of-bounds index is a runtime panic, modelled as the outer `none`.
`unmarshal` is the external `json.Unmarshal` into the caller's destination
(`nil` destination: pass `wantValue := false`). -/
def Iterator.get (i : Iterator) (wantValue : Bool) (unmarshal : String → Option GoErr) :
    Option (Option Item × Option GoErr) :=
  if i.iteratingItems ≠ true then some (none, some (.errorString "Not an Item Iterator."))
  else
    match i.results.get? i.index with
    | none => none
    | some r =>
      let item : Item := { Collection := { Name := r.Path.Collection },
                           Distance := r.Distance, Key := r.Path.Key, Ref := r.Path.Ref,
                           Score := r.Score, Tombstone := r.Path.Tombstone,
                           Updated := timeFromMs r.RefTime, Value := r.Value }
      if wantValue then some (some item, unmarshal r.Value) else some (some item, none)

/-- Model of `Iterator.GetEvent`; same out-of-bounds modelling as `Iterator.get`. -/
def Iterator.getEvent (i : Iterator) (wantValue : Bool)
    (unmarshal : String → Option GoErr) : Option (Option Event × Option GoErr) :=
  if i.iteratingEvents ≠ true then some (none, some (.errorString "Not an Event Iterator."))
  else
    match i.results.get? i.index with
    | none => none
    | some r =>
      let event : Event := { Collection := { Name := r.Path.Collection },
                             Key := r.Path.Key, Ordinal := r.Path.Ordinal, Ref := r.Path.Ref,
                             Typ := r.Path.Typ, Timestamp := timeFromMs r.Timestamp,
                             Value := r.Value }
      if wantValue then some (some event, unmarshal r.Value) else some (some event, none)

/-- The iterator every listing call returns: no results, index 0, not done,
no error, `next` holding the fully query-encoded initial URL, and the
item/event dispatch flags fixed at construction time. -/
def freshIter (events items : Bool) (url : String) : Iterator :=
  { Error := none, done := false, index := 0, iteratingEvents := events,
    iteratingItems := items, next := url, results := [] }

/-- Model of `Collection.List` with a nil query. -/
def Collection.listNil (c : Collection) : Iterator :=
  freshIter false true c.Name

/-- Model of `Collection.History` with nil options. -/
def Collection.historyNil (c : Collection) (key : String) : Iterator :=
  freshIter false true (c.Name ++ "/" ++ key ++ "/refs?")

/-- Model of `Collection.GetLinks` with nil options and a single kind. -/
def Collection.getLinksNil (c : Collection) (key kind : String) : Iterator :=
  freshIter false true (c.Name ++ "/" ++ key ++ "/relations/" ++ kind)

/-- Model of `Collection.ListEvents` with nil options. -/
def Collection.listEventsNil (c : Collection) (key typ : String) : Iterator :=
  freshIter true false (c.Name ++ "/" ++ key ++ "/events/" ++ typ)

/-! ### Abstract paging server (for the iterator claims) -/

/-- Total number of items across a list of pages. -/
def totalLen (pages : List (List JsonListItem)) : Nat := (pages.map List.length).sum

/-- The request `Iterator.Next` issues through `jsonReply` for a next-page
URL. -/
def listGetReq (url : String) : Request :=
  { method := "GET", path := url, headers := [("Accept-Encoding", "gzip; deflate")], body := none }

/-- States that `tr` serves the page sequence `pages` at the URLs `urls`: page `k` comes
back with status 200, decodes to a `jsonList` whose results are page `k`
and are non-empty, and whose `next` link leads to page `k+1` — or is empty
on the final page. -/
def servesPages (tr : Transport) (urls : Nat → String) (pages : List (List JsonListItem)) : Prop :=
  ∀ k, k < pages.length →
    urls k ≠ "" ∧ pages.getD k [] ≠ [] ∧
    ∃ resp jl, tr (listGetReq (urls k)) = .ok resp ∧ resp.StatusCode = 200 ∧
      resp.DecodeList = .ok jl ∧ jl.Results = pages.getD k [] ∧
      trimPre jl.Next "/v0/" = if k + 1 < pages.length then urls (k + 1) else ""

/-- The checks `innerAddEvent`/`innerUpdateEvent` run on the `Location` and
`Etag` headers of a success response; the functions build an `Event` only
when all of them pass. -/
def eventHeadersOk (resp : HttpResponse) : Prop :=
  resp.Header "Location" ≠ "" ∧
  (splitChar '/' (resp.Header "Location").data).length = 8 ∧
  goParseInt64 (String.mk ((splitChar '/' (resp.Header "Location").data).getD 6 [])) ≠ none ∧
  goParseInt64 (String.mk ((splitChar '/' (resp.Header "Location").data).getD 7 [])) ≠ none ∧
  resp.Header "Etag" ≠ "" ∧
  (splitChar '\x22' (resp.Header "Etag").data).length = 3

/-! ### Concrete fixtures used by witnesses and counterexamples -/

/-- A result element with all fields at their zero values. -/
def li0 : JsonListItem := {}

/-- A final page holding exactly one result. -/
def onePage : JsonList := { Next := "", Results := [li0] }

/-- A 200 response decoding to `onePage`. -/
def respPage1 : HttpResponse := { StatusCode := 200, DecodeList := .ok onePage }

/-- A transport answering every request with `respPage1`. -/
def trPage1 : Transport := fun _ => .ok respPage1

/-- An iterator sitting on the only element of a fetched one-item page,
with a non-empty next link. -/
def iInPage : Iterator :=
  { Error := none, done := false, index := 0, iteratingEvents := false,
    iteratingItems := true, next := "u", results := [li0] }

/-- Like `iInPage` but with a two-item fetched page. -/
def iTwoPage : Iterator := { iInPage with results := [li0, li0] }

/-- A 200 response decoding to an empty final page. -/
def respEmptyList : HttpResponse :=
  { StatusCode := 200, DecodeList := .ok { Next := "", Results := [] } }

/-- A transport answering every request with `respEmptyList`. -/
def trEmptyList : Transport := fun _ => .ok respEmptyList

/-- A 404 response with a non-empty (3-byte) body. -/
def resp404 : HttpResponse := { Status := "404 Not Found", StatusCode := 404, BodyLen := 3 }

/-- A transport answering every request with `resp404`. -/
def tr404 : Transport := fun _ => .ok resp404

/-- A bare 412 response. -/
def resp412 : HttpResponse := { StatusCode := 412 }

/-- A transport answering every request with `resp412`. -/
def tr412 : Transport := fun _ => .ok resp412

/-- A 201 response carrying no headers at all. -/
def resp201Bare : HttpResponse := { StatusCode := 201 }

/-- A transport answering every request with `resp201Bare`. -/
def tr201Bare : Transport := fun _ => .ok resp201Bare

/-- A 204 response carrying no headers at all. -/
def resp204Bare : HttpResponse := { StatusCode := 204 }

/-- A transport answering every request with `resp204Bare`. -/
def tr204Bare : Transport := fun _ => .ok resp204Bare

/-- A 200 GET response with a well-formed `Content-Location` header. -/
def respGetOk : HttpResponse :=
  { StatusCode := 200, DecodeRaw := .ok "1",
    Header := fun h => if h = "Content-Location" then "/v0/c/k/refs/abc" else "" }

/-- A transport answering every request with `respGetOk`. -/
def trGetOk : Transport := fun _ => .ok respGetOk

/-- A 200 GET response with no `Content-Location` header. -/
def respGetNoLoc : HttpResponse := { StatusCode := 200, DecodeRaw := .ok "1" }

/-- A transport answering every request with `respGetNoLoc`. -/
def trGetNoLoc : Transport := fun _ => .ok respGetNoLoc

/-- A concrete collection handle. -/
def col0 : Collection := { Name := "c" }

/-- A concrete item with key `k` and ref `r` in `col0`. -/
def item0 : Item := { Collection := col0, Key := "k", Ref := "r" }

/-! ### Shared lemmas -/

/-- Reconstructing a time from a millisecond count yields exactly that many
milliseconds of nanoseconds. -/
theorem timeFromMs_eq (ms : Int) : timeFromMs ms = 1000000 * ms := by
  have h := Int.tdiv_add_tmod ms 1000
  unfold timeFromMs timeUnix
  linarith

/-- The listing constructors all return `freshIter`-shaped iterators. -/
theorem listNil_eq_freshIter (c : Collection) : c.listNil = freshIter false true c.Name := rfl

/-- The `History` constructor with nil options returns a fresh item iterator. -/
theorem historyNil_eq_freshIter (c : Collection) (key : String) :
    c.historyNil key = freshIter false true (c.Name ++ "/" ++ key ++ "/refs?") := rfl

/-- The `GetLinks` constructor with nil options returns a fresh item iterator. -/
theorem getLinksNil_eq_freshIter (c : Collection) (key kind : String) :
    c.getLinksNil key kind = freshIter false true (c.Name ++ "/" ++ key ++ "/relations/" ++ kind) := rfl

/-- The `ListEvents` constructor with nil options returns a fresh event iterator. -/
theorem listEventsNil_eq_freshIter (c : Collection) (key typ : String) :
    c.listEventsNil key typ = freshIter true false (c.Name ++ "/" ++ key ++ "/events/" ++ typ) := rfl

/-! ### C8 -/

/-- C8: event timestamps go on the wire as `UnixNano()/1000000`
(`eventPathMs`) and come back as `time.Unix(ms/1000, (ms%1000)*1000000)`
(`timeFromMs`); decoding the encoding of any time `t` yields `t` truncated
(toward zero, as Go division does) to millisecond precision; encoding a
decoded millisecond value is the identity, so the decode-encode round trip
is idempotent. -/
theorem c8_timestamp_roundtrip (t ms : Int) :
    timeFromMs (eventPathMs t) = Int.tdiv t 1000000 * 1000000 ∧
    eventPathMs (timeFromMs ms) = ms ∧
    timeFromMs (eventPathMs (timeFromMs (eventPathMs t))) = timeFromMs (eventPathMs t) := by
  have hdec : ∀ m : Int, eventPathMs (timeFromMs m) = m := by
    intro m
    rw [timeFromMs_eq]
    unfold eventPathMs unixNano
    exact Int.mul_tdiv_cancel_left m (by decide)
  refine ⟨?_, hdec ms, by rw [hdec (eventPathMs t)]⟩
  rw [timeFromMs_eq]
  unfold eventPathMs unixNano
  ring

/-! ### C6 -/

/-- C6: `newError` maps 404 to `NotFoundError`, 412 to
`PreconditionFailedError`, 419 to `RateLimitedError`, and every other
status to an `UnknownError` carrying the raw status line, the numeric
status code, and the JSON `message` decoded from the body (`errMessage`). -/
theorem c6_error_classifier (resp : HttpResponse) :
    (resp.StatusCode = 404 → newError resp = .notFound "404: Not found.") ∧
    (resp.StatusCode = 412 → newError resp = .preconditionFailed "412: Precondition failed.") ∧
    (resp.StatusCode = 419 → newError resp = .rateLimited "Request rate limited.") ∧
    (resp.StatusCode ≠ 404 → resp.StatusCode ≠ 412 → resp.StatusCode ≠ 419 →
      newError resp = .unknown resp.Status (resp.StatusCode : Int) (errMessage resp)) := by
  unfold newError
  refine ⟨fun h => by simp [h], fun h => by simp [h], fun h => by simp [h],
          fun h1 h2 h3 => by simp [h1, h2, h3]⟩

/-- Witness for C6 at two concrete responses (a 404 and a 500). -/
theorem c6_error_classifier_witness :
    newError resp404 = .notFound "404: Not found." ∧
    newError { Status := "500 Oops", StatusCode := 500, DecodeErrMessage := .ok "boom" } =
      .unknown "500 Oops" 500 "boom" :=
  ⟨(c6_error_classifier resp404).1 rfl,
   (c6_error_classifier _).2.2.2 (by decide) (by decide) (by decide)⟩

/-! ### C3 -/

/-- C3: a done or errored iterator is absorbing: `Next` returns `false`,
performs no network fetch and leaves the whole iterator (including a stored
`Error`) unchanged, over any number of subsequent calls. -/
theorem c3_absorbing_states (tr : Transport) (i : Iterator)
    (h : i.done = true ∨ i.Error ≠ none) :
    i.nextStep tr = (false, i, 0) ∧ ∀ n, i.run tr n = ⟨0, 0, i⟩ := by
  have hstep : i.nextStep tr = (false, i, 0) := by
    unfold Iterator.nextStep
    rcases h with h | h
    · simp [h]
    · have hs : i.Error.isSome = true := Option.isSome_iff_ne_none.mpr h
      by_cases hd : i.done
      · simp [hd]
      · simp [hd, hs]
  refine ⟨hstep, fun n => ?_⟩
  induction n with
  | zero => rfl
  | succ n ih => simp [Iterator.run, hstep, ih]

/-- Witness for C3: a finished iterator and an errored iterator. -/
theorem c3_absorbing_states_witness :
    Iterator.nextStep trPage1 { done := true } = (false, { done := true }, 0) ∧
    (Iterator.run trPage1 { Error := some (.errorString "net") } 5).fetches = 0 :=
  ⟨(c3_absorbing_states trPage1 { done := true } (Or.inl rfl)).1,
   by rw [(c3_absorbing_states trPage1 { Error := some (.errorString "net") }
       (Or.inr (by simp))).2 5]⟩

/-! ### C2 -/

/-- C2 counterexample: the claim asserts zero network calls whenever
`index < len(results)`; but with `index = len(results) - 1` (the last item
of the page already current) and a non-empty next link, `Next` performs a
fetch and replaces `next`/`results`. -/
theorem c2_counterexample :
    iInPage.index < iInPage.results.length ∧
    (iInPage.nextStep trPage1).2.2 = 1 ∧
    (iInPage.nextStep trPage1).2.1.next ≠ iInPage.next := by
  refine ⟨by decide, rfl, by decide⟩

/-- C2 (amended): advancing an iterator whose index satisfies
`index + 1 < len(results)` — i.e. unconsumed items remain beyond the
current one — performs zero network calls and modifies only the `index`
field. -/
theorem c2_inpage_advance (tr : Transport) (i : Iterator)
    (h : i.index + 1 < i.results.length) :
    (i.nextStep tr).2.2 = 0 ∧
    (i.nextStep tr).2.1.done = i.done ∧
    (i.nextStep tr).2.1.Error = i.Error ∧
    (i.nextStep tr).2.1.next = i.next ∧
    (i.nextStep tr).2.1.results = i.results ∧
    (i.nextStep tr).2.1.iteratingEvents = i.iteratingEvents ∧
    (i.nextStep tr).2.1.iteratingItems = i.iteratingItems := by
  unfold Iterator.nextStep
  by_cases hd : i.done
  · simp [hd]
  · by_cases he : i.Error.isSome
    · simp [hd, he]
    · have hg : i.index < i.results.length - 1 := by omega
      simp [hd, he, hg]

/-- Witness for C2 (amended) on a two-item page. -/
theorem c2_inpage_advance_witness :
    iTwoPage.index + 1 < iTwoPage.results.length ∧
    (iTwoPage.nextStep trPage1).2.2 = 0 ∧
    (iTwoPage.nextStep trPage1).2.1.results = iTwoPage.results :=
  ⟨by decide, (c2_inpage_advance trPage1 iTwoPage (by decide)).1,
   (c2_inpage_advance trPage1 iTwoPage (by decide)).2.2.2.2.1⟩

/-! ### C9 -/

/-- C9 counterexample: the claim asserts the body is fully read before
`emptyReply` returns even on the error path; but on a 404 with a 3-byte
body, `newError` returns before touching the body, so 0 of 3 bytes are
read. -/
theorem c9_counterexample :
    resp404.BodyLen = 3 ∧ (emptyReply tr404 "GET" "c/k" [] none 200).2 = 0 :=
  ⟨rfl, rfl⟩

/-- C9 (amended): through `emptyReply` the response body is fully read
before the call returns on the success path (expected status); on the
error path only the bytes consumed by the error classifier's JSON decode
are read, which is nothing for 404/412/419 responses. -/
theorem c9_body_drain (tr : Transport) (method path : String)
    (headers : List (String × String)) (body : Option String) (status : Nat)
    (resp : HttpResponse)
    (htr : tr { method := method, path := path, headers := headers, body := body } = .ok resp) :
    (resp.StatusCode = status →
      emptyReply tr method path headers body status = (.ok resp, resp.BodyLen)) ∧
    (resp.StatusCode ≠ status →
      emptyReply tr method path headers body status = (.error (newError resp), newErrorConsumed resp)) ∧
    (resp.StatusCode = 404 ∨ resp.StatusCode = 412 ∨ resp.StatusCode = 419 →
      newErrorConsumed resp = 0) := by
  unfold emptyReply
  rw [htr]
  refine ⟨fun h => by simp [h], fun h => by simp [h], fun h => ?_⟩
  unfold newErrorConsumed
  rcases h with h | h | h <;> simp [h]

/-- Witness for C9 (amended) at the 404 fixture. -/
theorem c9_body_drain_witness :
    resp404.StatusCode ≠ 200 ∧
    emptyReply tr404 "GET" "c/k" [] none 200 =
      (.error (newError resp404), newErrorConsumed resp404) ∧
    newErrorConsumed resp404 = 0 :=
  ⟨by decide,
   (c9_body_drain tr404 "GET" "c/k" [] none 200 resp404 rfl).2.1 (by decide),
   (c9_body_drain tr404 "GET" "c/k" [] none 200 resp404 rfl).2.2 (Or.inl rfl)⟩

/-! ### C4 -/

/-- C4: a 412 response makes `Create` return a nil item with
`AlreadyExistsError(key)`, while the conditional `Item.Update` and
`Item.Delete` (which send `If-Match` with the item's ref) return
`NotMostRecentError`; no other error kind results from a 412 on these
three calls. -/
theorem c4_412_reclassification (tr : Transport) (resp : HttpResponse)
    (c : Collection) (i : Item) (key raw : String)
    (htr : ∀ req, tr req = .ok resp) (h412 : resp.StatusCode = 412) :
    c.create tr key (.ok raw) = (none, some (.alreadyExists key)) ∧
    i.update tr (.ok raw) = (none, some (.notMostRecent i.Key)) ∧
    i.delete tr = some (.notMostRecent i.Ref) := by
  have hne : newError resp = .preconditionFailed "412: Precondition failed." := by
    unfold newError
    simp [h412]
  have hput : ∀ (c : Collection) (key : String) (hs : List (String × String)),
      c.innerPut tr key hs (.ok raw) =
        (none, some (.preconditionFailed "412: Precondition failed.")) := by
    intro c key hs
    simp [Collection.innerPut, emptyReply, htr, h412, hne]
  refine ⟨?_, ?_, ?_⟩
  · unfold Collection.create
    rw [hput]
  · unfold Item.update
    rw [hput]
  · simp [Item.delete, emptyReply, htr, h412, hne]

/-- Witness for C4 at the 412 fixture. -/
theorem c4_412_reclassification_witness :
    resp412.StatusCode = 412 ∧
    col0.create tr412 "k" (.ok "1") = (none, some (.alreadyExists "k")) ∧
    item0.update tr412 (.ok "1") = (none, some (.notMostRecent "k")) ∧
    item0.delete tr412 = some (.notMostRecent "r") :=
  ⟨rfl,
   (c4_412_reclassification tr412 resp412 col0 item0 "k" "1" (fun _ => rfl) rfl).1,
   (c4_412_reclassification tr412 resp412 col0 item0 "k" "1" (fun _ => rfl) rfl).2.1,
   (c4_412_reclassification tr412 resp412 col0 item0 "k" "1" (fun _ => rfl) rfl).2.2⟩

/-! ### C5 -/

/-- When the transport returns the expected status, `emptyReply` succeeds
with the response and a fully read body. -/
theorem emptyReply_expected (tr : Transport) (method path : String)
    (headers : List (String × String)) (body : Option String) (status : Nat)
    (resp : HttpResponse)
    (htr : tr { method := method, path := path, headers := headers, body := body } = .ok resp)
    (h : resp.StatusCode = status) :
    emptyReply tr method path headers body status = (.ok resp, resp.BodyLen) := by
  unfold emptyReply
  rw [htr]
  simp [h]

/-- C5: when the expected success status arrives but the `Location` header
is missing/malformed (`innerPut`: no slash to split the ref on;
`innerAddEvent`/`innerUpdateEvent`: empty, or not 8 slash-separated parts,
or unparsable timestamp/ordinal) or the `Etag` header is missing/malformed,
the call returns an error together with a nil entity — never a partially
populated `Item` or `Event`. -/
theorem c5_malformed_headers (tr : Transport) (resp : HttpResponse)
    (c : Collection) (key typ raw : String) (ts : Option Time) (t0 : Time)
    (ordinal : Int) (hdrs : List (String × String))
    (htr : ∀ req, tr req = .ok resp) :
    (resp.StatusCode = 201 → afterLast '/' (resp.Header "Location").data = none →
      c.innerPut tr key hdrs (.ok raw) =
        (none, some (.errorString "Missing Location header."))) ∧
    (resp.StatusCode = 201 → ¬ eventHeadersOk resp →
      (c.innerAddEvent tr key typ ts (.ok raw)).1 = none ∧
      ((c.innerAddEvent tr key typ ts (.ok raw)).2).isSome = true) ∧
    (resp.StatusCode = 204 → ¬ eventHeadersOk resp →
      (c.innerUpdateEvent tr key typ t0 ordinal (.ok raw) hdrs).1 = none ∧
      ((c.innerUpdateEvent tr key typ t0 ordinal (.ok raw) hdrs).2).isSome = true) := by
  refine ⟨fun h201 hloc => ?_, fun h201 hbad => ?_, fun h204 hbad => ?_⟩
  · unfold Collection.innerPut
    dsimp only
    rw [emptyReply_expected tr _ _ _ _ _ resp (htr _) h201]
    dsimp only
    rw [hloc]
  · unfold Collection.innerAddEvent
    dsimp only
    rw [emptyReply_expected tr _ _ _ _ _ resp (htr _) h201]
    dsimp only
    split
    · exact ⟨rfl, rfl⟩
    · split
      · exact ⟨rfl, rfl⟩
      · split
        · exact ⟨rfl, rfl⟩
        · split
          · exact ⟨rfl, rfl⟩
          · split
            · exact ⟨rfl, rfl⟩
            · split
              · exact ⟨rfl, rfl⟩
              · rename_i hl1 hl2 o6 tsMs h6 o7 ord h7 h5 hq
                exact absurd ⟨hl1, not_not.mp hl2,
                  by rw [h6]; exact Option.some_ne_none _,
                  by rw [h7]; exact Option.some_ne_none _,
                  h5, not_not.mp hq⟩ hbad
  · unfold Collection.innerUpdateEvent
    dsimp only
    rw [emptyReply_expected tr _ _ _ _ _ resp (htr _) h204]
    dsimp only
    split
    · exact ⟨rfl, rfl⟩
    · split
      · exact ⟨rfl, rfl⟩
      · split
        · exact ⟨rfl, rfl⟩
        · split
          · exact ⟨rfl, rfl⟩
          · split
            · exact ⟨rfl, rfl⟩
            · split
              · exact ⟨rfl, rfl⟩
              · rename_i hl1 hl2 o6 tsMs h6 o7 ord h7 h5 hq
                exact absurd ⟨hl1, not_not.mp hl2,
                  by rw [h6]; exact Option.some_ne_none _,
                  by rw [h7]; exact Option.some_ne_none _,
                  h5, not_not.mp hq⟩ hbad

/-- Witness for C5: 201/204 responses carrying no headers at all. -/
theorem c5_malformed_headers_witness :
    resp201Bare.StatusCode = 201 ∧ resp204Bare.StatusCode = 204 ∧
    ¬ eventHeadersOk resp201Bare ∧
    col0.innerPut tr201Bare "k" [] (.ok "1") =
      (none, some (.errorString "Missing Location header.")) ∧
    (col0.innerAddEvent tr201Bare "k" "t" none (.ok "1")).1 = none ∧
    (col0.innerUpdateEvent tr204Bare "k" "t" 0 0 (.ok "1") []).1 = none :=
  ⟨rfl, rfl, by unfold eventHeadersOk; decide,
   (c5_malformed_headers tr201Bare resp201Bare col0 "k" "t" "1" none 0 0 []
     (fun _ => rfl)).1 rfl rfl,
   ((c5_malformed_headers tr201Bare resp201Bare col0 "k" "t" "1" none 0 0 []
     (fun _ => rfl)).2.1 rfl (by unfold eventHeadersOk; decide)).1,
   ((c5_malformed_headers tr204Bare resp204Bare col0 "k" "t" "1" none 0 0 []
     (fun _ => rfl)).2.2 rfl (by unfold eventHeadersOk; decide)).1⟩

/-! ### C7 -/

/-- C7: on a 200 response, `GetRef` with no explicit ref sets the returned
item's `Ref` to the substring after the last slash of the
`Content-Location` header, and fails with a nil item when that header is
absent or has no slash; with an explicit ref it returns that ref without
consulting the header; `Get` is `GetRef` with an empty ref. -/
theorem c7_getref_content_location (tr : Transport) (resp : HttpResponse)
    (c : Collection) (key ref raw : String) (wv : Bool) (um : String → Option GoErr)
    (htr : ∀ req, tr req = .ok resp) (h200 : resp.StatusCode = 200)
    (hraw : resp.DecodeRaw = .ok raw) :
    (∀ suf, afterLast '/' (resp.Header "Content-Location").data = some suf →
      ((c.getRef tr key "" wv um).1).map Item.Ref = some (String.mk suf)) ∧
    (afterLast '/' (resp.Header "Content-Location").data = none →
      c.getRef tr key "" wv um =
        (none, some (.errorString "Missing Content-Location header."))) ∧
    (ref ≠ "" → ((c.getRef tr key ref wv um).1).map Item.Ref = some ref) ∧
    c.get tr key wv um = c.getRef tr key "" wv um := by
  refine ⟨fun suf hsuf => ?_, fun hnone => ?_, fun href => ?_, rfl⟩
  · simp only [Collection.getRef, jsonReplyRaw, htr, h200, hraw]
    simp [hsuf]
    cases wv <;> simp
  · simp only [Collection.getRef, jsonReplyRaw, htr, h200, hraw]
    simp [hnone]
  · simp only [Collection.getRef, jsonReplyRaw, htr, h200, hraw]
    simp [href]
    cases wv <;> simp

/-- Witness for C7: a response whose `Content-Location` is
`/v0/c/k/refs/abc` (ref extracted) and one with the header missing. -/
theorem c7_getref_content_location_witness :
    respGetOk.StatusCode = 200 ∧
    afterLast '/' (respGetOk.Header "Content-Location").data = some "abc".data ∧
    ((col0.getRef trGetOk "k" "" false (fun _ => none)).1).map Item.Ref = some "abc" ∧
    col0.getRef trGetNoLoc "k" "" false (fun _ => none) =
      (none, some (.errorString "Missing Content-Location header.")) ∧
    ((col0.getRef trGetOk "k" "r2" false (fun _ => none)).1).map Item.Ref = some "r2" :=
  ⟨rfl, by decide,
   (c7_getref_content_location trGetOk respGetOk col0 "k" "r2" "1" false (fun _ => none)
     (fun _ => rfl) rfl rfl).1 "abc".data (by decide),
   (c7_getref_content_location trGetNoLoc respGetNoLoc col0 "k" "r2" "1" false (fun _ => none)
     (fun _ => rfl) rfl rfl).2.1 (by decide),
   (c7_getref_content_location trGetOk respGetOk col0 "k" "r2" "1" false (fun _ => none)
     (fun _ => rfl) rfl rfl).2.2.1 (by decide)⟩

/-! ### C10 -/

/-- An in-bounds index makes `Iterator.Get` safe (no out-of-bounds access). -/
theorem Iterator.get_ne_none (i : Iterator) (h : i.index < i.results.length)
    (hit : i.iteratingItems = true) (wv : Bool) (um : String → Option GoErr) :
    i.get wv um ≠ none := by
  unfold Iterator.get
  cases hx : i.results.get? i.index with
  | none =>
    rw [List.get?_eq_none] at hx
    omega
  | some r => cases wv <;> simp [hit, hx]

/-- An in-bounds index makes `Iterator.GetEvent` safe. -/
theorem Iterator.getEvent_ne_none (i : Iterator) (h : i.index < i.results.length)
    (hev : i.iteratingEvents = true) (wv : Bool) (um : String → Option GoErr) :
    i.getEvent wv um ≠ none := by
  unfold Iterator.getEvent
  cases hx : i.results.get? i.index with
  | none =>
    rw [List.get?_eq_none] at hx
    omega
  | some r => cases wv <;> simp [hev, hx]

/-- C10: whenever `Next` has just returned `true`, the iterator satisfies
`index < len(results)`, so the unchecked `results[index]` access in `Get`
and `GetEvent` cannot panic; a fresh iterator (empty `results`, index 0)
does not satisfy it, and `Get`/`GetEvent` before the first successful
`Next` performs an out-of-bounds access (the `none` result). -/
theorem c10_index_invariant (tr : Transport) (i : Iterator) :
    ((i.nextStep tr).1 = true →
      (i.nextStep tr).2.1.index < (i.nextStep tr).2.1.results.length ∧
      ((i.nextStep tr).2.1.iteratingItems = true →
        ∀ wv um, (i.nextStep tr).2.1.get wv um ≠ none) ∧
      ((i.nextStep tr).2.1.iteratingEvents = true →
        ∀ wv um, (i.nextStep tr).2.1.getEvent wv um ≠ none)) ∧
    (∀ ev url wv um, (freshIter ev true url).get wv um = none) ∧
    (∀ it url wv um, (freshIter true it url).getEvent wv um = none) := by
  have hbound : (i.nextStep tr).1 = true →
      (i.nextStep tr).2.1.index < (i.nextStep tr).2.1.results.length := by
    intro h
    unfold Iterator.nextStep at h ⊢
    by_cases hd : i.done
    · simp [hd] at h
    · by_cases he : i.Error.isSome
      · simp [hd, he] at h
      · by_cases hg : i.index < i.results.length - 1
        · simp [hd, he, hg] at h ⊢
          omega
        · by_cases hn : i.next = ""
          · simp [hd, he, hg, hn] at h
          · cases hj : jsonReplyList tr "GET" i.next none 200 with
            | error e => simp [hd, he, hg, hn, hj] at h
            | ok pr =>
              by_cases hz : pr.2.Results.length = 0
              · simp [hd, he, hg, hn, hj, hz] at h
              · simp [hd, he, hg, hn, hj, hz] at h ⊢
                omega
  refine ⟨fun h => ⟨hbound h, fun hit wv um => ?_, fun hev wv um => ?_⟩,
          fun ev url wv um => rfl, fun it url wv um => rfl⟩
  · exact Iterator.get_ne_none _ (hbound h) hit wv um
  · exact Iterator.getEvent_ne_none _ (hbound h) hev wv um

/-- Witness for C10: a fresh iterator whose first `Next` fetches a one-item
page and returns `true`, leaving `index = 0 < 1 = len(results)`. -/
theorem c10_index_invariant_witness :
    ((freshIter false true "u").nextStep trPage1).1 = true ∧
    ((freshIter false true "u").nextStep trPage1).2.1.index <
      ((freshIter false true "u").nextStep trPage1).2.1.results.length ∧
    (freshIter false true "u").get false (fun _ => none) = none :=
  ⟨by decide,
   ((c10_index_invariant trPage1 (freshIter false true "u")).1 (by decide)).1,
   (c10_index_invariant trPage1 (freshIter false true "u")).2.1 false "u" false (fun _ => none)⟩

/-! ### C1 -/

/-- Splitting a run of `Next` calls. -/
theorem Iterator.run_add (tr : Transport) (a : Nat) (i : Iterator) (b : Nat) :
    i.run tr (a + b) =
      ⟨(i.run tr a).trues + ((i.run tr a).iter.run tr b).trues,
       (i.run tr a).fetches + ((i.run tr a).iter.run tr b).fetches,
       ((i.run tr a).iter.run tr b).iter⟩ := by
  induction a generalizing i with
  | zero =>
    have h0 : i.run tr 0 = ⟨0, 0, i⟩ := rfl
    rw [Nat.zero_add, h0]
    simp
  | succ a ih =>
    have hre : a + 1 + b = (a + b) + 1 := by omega
    rw [hre]
    simp only [Iterator.run]
    rw [ih]
    simp [Nat.add_assoc]

/-- Running `n` in-page advances yields `n` `true`s, perform no fetch, and only move
the index forward by `n`. -/
theorem Iterator.run_inpage (tr : Transport) (n : Nat) (i : Iterator)
    (hd : i.done = false) (he : i.Error = none)
    (hn : i.index + n < i.results.length) :
    i.run tr n = ⟨n, 0, { i with index := i.index + n }⟩ := by
  induction n generalizing i with
  | zero => rfl
  | succ n ih =>
    have hstep : i.nextStep tr = (true, { i with index := i.index + 1 }, 0) := by
      unfold Iterator.nextStep
      have hg : i.index < i.results.length - 1 := by omega
      simp [hd, he, hg]
    have harith : i.index + (n + 1) = i.index + 1 + n := by omega
    rw [harith]
    simp only [Iterator.run, hstep]
    rw [ih { i with index := i.index + 1 } hd he (by simp; omega)]
    simp
    omega

/-- Dropping the first page of a served page sequence. -/
theorem servesPages_cons (tr : Transport) (urls : Nat → String)
    (p : List JsonListItem) (ps : List (List JsonListItem))
    (hs : servesPages tr urls (p :: ps)) :
    servesPages tr (fun k => urls (k + 1)) ps := by
  intro k hk
  obtain ⟨h1, h2, resp, jl, h3, h4, h5, h6, h7⟩ := hs (k + 1) (by simp; omega)
  refine ⟨h1, by simpa using h2, resp, jl, h3, h4, h5, by simpa using h6, ?_⟩
  rw [h7]
  by_cases hc : k + 1 < ps.length
  · have hcond : k + 1 + 1 < (p :: ps).length := by simp; omega
    rw [if_pos hcond, if_pos hc]
  · have hcond : ¬ (k + 1 + 1 < (p :: ps).length) := by simp; omega
    rw [if_neg hcond, if_neg hc]

/-- Running an iterator that is about to fetch page 0 of a served page
sequence consumes every item across all pages, with exactly one fetch per
page, landing (done = false, no error) on the last element of the final
page with an empty next link. -/
theorem Iterator.run_pages (tr : Transport) (urls : Nat → String)
    (pages : List (List JsonListItem)) (i : Iterator)
    (hs : servesPages tr urls pages)
    (hd : i.done = false) (he : i.Error = none)
    (hidx : i.results.length ≤ i.index + 1)
    (hnext : i.next = (if pages.length = 0 then "" else urls 0)) :
    ∃ f, i.run tr (totalLen pages) = ⟨totalLen pages, pages.length, f⟩ ∧
      f.done = false ∧ f.Error = none ∧ f.next = "" ∧
      f.results.length ≤ f.index + 1 := by
  induction pages generalizing urls i with
  | nil => exact ⟨i, rfl, hd, he, by simpa using hnext, hidx⟩
  | cons p ps ih =>
    obtain ⟨hu0, hp0, resp, jl, htr, h200, hdec, hres, htrim⟩ := hs 0 (by simp)
    have hp0' : p ≠ [] := by simpa using hp0
    have hres' : jl.Results = p := by simpa using hres
    have hplen : 1 ≤ p.length := List.length_pos.mpr hp0'
    have hnext' : i.next = urls 0 := by simpa using hnext
    have hjson : jsonReplyList tr "GET" (urls 0) none 200 = .ok (resp, jl) := by
      unfold jsonReplyList
      unfold listGetReq at htr
      rw [htr]
      simp [h200, hdec]
    have hns : i.nextStep tr =
        (true, { i with next := trimPre jl.Next "/v0/", results := jl.Results, index := 0 }, 1) := by
      unfold Iterator.nextStep
      have hg : ¬ i.index < i.results.length - 1 := by omega
      have hz : ¬ jl.Results.length = 0 := by
        rw [hres']
        omega
      simp [hd, he, hg, hnext', hu0, hjson, hz]
    have hrun1 : i.run tr 1 =
        ⟨1, 1, { i with next := trimPre jl.Next "/v0/", results := jl.Results, index := 0 }⟩ := by
      simp [Iterator.run, hns]
    have htot : totalLen (p :: ps) = 1 + ((p.length - 1) + totalLen ps) := by
      unfold totalLen
      simp
      omega
    rw [htot, Iterator.run_add tr 1, hrun1]
    set i1 : Iterator :=
      { i with next := trimPre jl.Next "/v0/", results := jl.Results, index := 0 } with hi1
    have hrunp : i1.run tr (p.length - 1) = ⟨p.length - 1, 0, { i1 with index := p.length - 1 }⟩ := by
      have := Iterator.run_inpage tr (p.length - 1) i1 hd he
        (by simp [hi1, hres']; omega)
      simpa using this
    rw [Iterator.run_add tr (p.length - 1), hrunp]
    set i2 : Iterator := { i1 with index := p.length - 1 } with hi2
    have hnext2 : i2.next = (if ps.length = 0 then "" else urls 1) := by
      show trimPre jl.Next "/v0/" = _
      rw [htrim]
      by_cases hc : ps.length = 0
      · have hcond : ¬ (0 + 1 < (p :: ps).length) := by rw [List.length_cons]; omega
        rw [if_neg hcond, if_pos hc]
      · have hcond : 0 + 1 < (p :: ps).length := by rw [List.length_cons]; omega
        rw [if_pos hcond, if_neg hc]
    obtain ⟨f, hrunps, hfd, hfe, hfn, hfi⟩ := ih (fun k => urls (k + 1)) i2
      (servesPages_cons tr urls p ps hs) hd he (by simp [hi2, hi1, hres']; omega) hnext2
    refine ⟨f, ?_, hfd, hfe, hfn, hfi⟩
    rw [hrunps]
    simp
    omega

/-- With every page full at `L` items except a final partial page, the page
count is `ceil(total / L)`. -/
theorem pages_ceil (L : Nat) (pages : List (List JsonListItem)) (hL : 0 < L)
    (hne : pages ≠ [])
    (hfull : ∀ k, k + 1 < pages.length → (pages.getD k []).length = L)
    (hl1 : 0 < (pages.getD (pages.length - 1) []).length)
    (hlL : (pages.getD (pages.length - 1) []).length ≤ L) :
    (totalLen pages + L - 1) / L = pages.length := by
  have htot : totalLen pages =
      L * (pages.length - 1) + (pages.getD (pages.length - 1) []).length := by
    clear hl1 hlL
    induction pages with
    | nil => exact absurd rfl hne
    | cons p ps ih =>
      cases ps with
      | nil => simp [totalLen]
      | cons q rest =>
        have hp : p.length = L := hfull 0 (by simp)
        have ih' := ih (by simp) (fun k hk => by
          have h := hfull (k + 1) (by simp at hk ⊢; omega)
          simpa using h)
        have hsplit : totalLen (p :: q :: rest) = p.length + totalLen (q :: rest) := by
          unfold totalLen
          simp
        rw [hsplit, hp, ih']
        have hgd : (p :: q :: rest).getD ((p :: q :: rest).length - 1) [] =
            (q :: rest).getD ((q :: rest).length - 1) [] := by
          show (p :: q :: rest).getD (rest.length + 1) [] = _
          rw [List.getD_cons_succ]
          simp
        rw [hgd]
        have hlen : (p :: q :: rest).length - 1 = rest.length + 1 := by simp
        rw [hlen]
        have hlen2 : (q :: rest).length - 1 = rest.length := by simp
        rw [hlen2]
        ring
  rw [htot]
  set m := (pages.getD (pages.length - 1) []).length with hm
  have hP : 1 ≤ pages.length := by
    cases pages with
    | nil => exact absurd rfl hne
    | cons p ps => simp
  have h1 : L * (pages.length - 1) + m + L - 1 = L * (pages.length - 1) + (m + L - 1) := by
    omega
  rw [h1, Nat.mul_add_div hL]
  have h2 : (m + L - 1) / L = 1 :=
    Nat.div_eq_of_lt_le (by omega) (by omega)
  rw [h2]
  omega

/-- C1 counterexample: the claim as stated includes `N = 0`.  Against a
server whose listing is empty (one page with zero items, empty next link,
any limit, here `L = 10`), the iterator yields 0 items and the single
advance returns false with no error — but it performs 1 network fetch,
not `ceil(0/10) = 0`. -/
theorem c1_counterexample :
    ((freshIter false true "u").run trEmptyList 1).trues = 0 ∧
    ((freshIter false true "u").run trEmptyList 1).iter.Error = none ∧
    ((freshIter false true "u").run trEmptyList 1).fetches = 1 ∧
    (0 + 10 - 1) / 10 = 0 :=
  ⟨rfl, rfl, rfl, rfl⟩

/-- C1 (amended): every listing operation returns a `freshIter`-shaped
iterator; run against a server returning `N ≥ 1` items in pages of exactly
`L` items apart from a final partial page, with an empty next link on the
final page, `N + 1` calls to `Next` return `true` exactly `N` times,
perform exactly `ceil(N/L)` fetches in total, and the `(N+1)`-th call
returns `false` with no fetch and `Error` still nil.  (For `N = 0` the
code performs one fetch although `ceil(0/L) = 0`.) -/
theorem c1_iterator_exhaustion (tr : Transport) (urls : Nat → String)
    (pages : List (List JsonListItem)) (L : Nat) (ev it : Bool)
    (hL : 0 < L) (hne : pages ≠ [])
    (hs : servesPages tr urls pages)
    (hfull : ∀ k, k + 1 < pages.length → (pages.getD k []).length = L)
    (hlL : (pages.getD (pages.length - 1) []).length ≤ L) :
    ∃ f, (freshIter ev it (urls 0)).run tr (totalLen pages + 1) =
        ⟨totalLen pages, (totalLen pages + L - 1) / L, f⟩ ∧
      f.Error = none ∧ f.done = true ∧
      Iterator.nextStep tr ((freshIter ev it (urls 0)).run tr (totalLen pages)).iter =
        (false, f, 0) := by
  have hP : 0 < pages.length := List.length_pos.mpr hne
  have hnext0 : (freshIter ev it (urls 0)).next = (if pages.length = 0 then "" else urls 0) := by
    rw [if_neg (by omega)]
    rfl
  obtain ⟨f0, hrun, hf0d, hf0e, hf0n, hf0i⟩ :=
    Iterator.run_pages tr urls pages (freshIter ev it (urls 0)) hs rfl rfl
      (by simp [freshIter]) hnext0
  have hl1 : 0 < (pages.getD (pages.length - 1) []).length := by
    obtain ⟨-, hp, -⟩ := hs (pages.length - 1) (by omega)
    exact List.length_pos.mpr hp
  have hstep : f0.nextStep tr = (false, { f0 with done := true }, 0) := by
    unfold Iterator.nextStep
    have hg : ¬ f0.index < f0.results.length - 1 := by omega
    simp [hf0d, hf0e, hg, hf0n]
  refine ⟨{ f0 with done := true }, ?_, hf0e, rfl, ?_⟩
  · rw [Iterator.run_add tr (totalLen pages), hrun]
    simp only [Iterator.run, hstep]
    rw [pages_ceil L pages hL hne hfull hl1 hlL]
    simp
  · rw [hrun]
    exact hstep

/-- Witness for C1 (amended): a single one-item page served at URL `u`
with limit `L = 1`: two `Next` calls yield one `true`, one fetch, then
`false` with no error. -/
theorem c1_iterator_exhaustion_witness :
    0 < 1 ∧ ([[li0]] : List (List JsonListItem)) ≠ [] ∧
    (∃ f, (freshIter false true "u").run trPage1 2 = ⟨1, 1, f⟩ ∧
      f.Error = none ∧ f.done = true ∧
      Iterator.nextStep trPage1 ((freshIter false true "u").run trPage1 1).iter =
        (false, f, 0)) :=
  ⟨Nat.one_pos, by simp,
   c1_iterator_exhaustion trPage1 (fun _ => "u") [[li0]] 1 false true Nat.one_pos (by simp)
     (fun k hk => by
       have hk0 : k = 0 := by simpa using hk
       subst hk0
       exact ⟨by decide, by simp, respPage1, onePage, rfl, rfl, rfl, rfl, by decide⟩)
     (fun k hk => absurd hk (by simp))
     (by simp)⟩
